import Mathlib

/-!
Shallow embedding of `packages/core/src/state-management/repository.ts`
(js-ceramic).  The Repository mediates between an in-memory cache of
`RunningState`s, a local persistent state store, and the network.  External
collaborators (state store, anchor-request store, network dispatcher, commit
handler, StateManager bookkeeping, indexing API, CACAO expiration check) are
modelled as an `Env` of oracle functions, and calls the Repository makes into
collaborators are recorded as `Event`s in a trace, so that claims about which
calls happen (sync, confirmAnchorResponse, publishTip, pin-store add/remove,
warnings) are directly statable.  Errors thrown by the TypeScript code are
modelled with `Except`, with the trace of events emitted before the throw
preserved alongside the error.
-/

namespace Ceramic

/-- `SyncOptions` enum from `@ceramicnetwork/common`. -/
inductive SyncOptions where
  | PREFER_CACHE
  | SYNC_ALWAYS
  | NEVER_SYNC
  | SYNC_ON_ERROR
deriving DecidableEq, Repr

/-- `OperationType` enum from repository.ts. -/
inductive OperationType where
  | CREATE
  | UPDATE
  | LOAD
deriving DecidableEq, Repr

/-- Stream metadata; only the `model` field is relevant to the Repository. -/
structure Metadata where
  model : Option Nat
deriving DecidableEq, Repr

/-- A stream's materialised state: the commit log (as CIDs) and metadata. -/
structure StreamState where
  log : List Nat
  metadata : Metadata
deriving DecidableEq, Repr

/-- Live wrapper around a `StreamState`, tracking the pinned flag. -/
structure RunningState where
  id : Nat
  state : StreamState
  isPinned : Bool
deriving DecidableEq, Repr

/-- `RunningState.tip`: the CID of the last log entry. -/
def RunningState.tip (rs : RunningState) : Nat :=
  (rs.state.log.getLast?).getD 0

/-- Commit data handed to a handler, with the `disableTimecheck` flag. -/
structure CommitData where
  cid : Nat
  disableTimecheck : Bool
deriving DecidableEq, Repr

/-- Immutable snapshot produced by `StateManager.atCommit`. -/
structure SnapshotState where
  state : StreamState
deriving DecidableEq, Repr

/-- A `CommitID`: a base stream plus a commit within its log. -/
structure CommitID where
  baseID : Nat
  commit : Nat
deriving DecidableEq, Repr

/-- Errors the modelled Repository operations can raise. -/
inductive RepoError where
  | noGenesisCommit (cid : Nat)
  | cannotUnpinIndexed (sid : Nat)
  | capabilityExpired
  | commitNotInLog
deriving DecidableEq, Repr

/-- Calls made into collaborators, recorded as a trace. -/
inductive Event where
  | syncCall (rs : RunningState) (timeoutMs : Nat) (hintTip : Option Nat)
  | confirmAnchorResponse (rs : RunningState) (cid : Nat)
  | handlerApplyGenesis (cd : CommitData)
  | warnPinOpts (opType : OperationType) (pin : Bool)
  | pinStoreAdd (sid : Nat)
  | pinStoreRm (sid : Nat)
  | publishTip (sid : Nat)
  | markUnpinned (sid : Nat)
  | markPinnedAndSynced (sid : Nat)
  | applyWriteOptsSM (sid : Nat)
deriving DecidableEq, Repr

/-- The collaborators the Repository calls into, as oracle functions:
`pinStore.stateStore.load`, `anchorRequestStore.load` (the stored request's
CID), whether `stateManager.anchorService` is configured, the dispatcher's
commit fetch for a genesis CID, the handler's `applyCommit` for genesis
commits, `StateManager.wasPinnedStreamSynced`, `index.shouldIndexStream`,
whether `StreamUtils.checkForCacaoExpiration` throws on a state,
`StateManager.atCommit`, and `StateManager.applyCommit`. -/
structure Env where
  stateStoreLoad : Nat → Option StreamState
  anchorRequestStoreLoad : Nat → Option Nat
  hasAnchorService : Bool
  getCommitData : Nat → Option CommitData
  applyGenesisCommit : CommitData → StreamState
  wasPinnedStreamSynced : Nat → Bool
  shouldIndexStream : Nat → Bool
  cacaoExpired : StreamState → Bool
  atCommit : RunningState → CommitID → Except RepoError SnapshotState
  applyCommitSM : Nat → Nat → RunningState

/-- The Repository's own mutable state: the in-memory cache. -/
structure Repo where
  inmemory : List (Nat × RunningState)
deriving DecidableEq, Repr

/-- `inmemory.get(streamId.toString())`. -/
def cacheGet (repo : Repo) (sid : Nat) : Option RunningState :=
  (repo.inmemory.find? (fun p => p.1 == sid)).map Prod.snd

/-- `add(state$)`: put the RunningState into the in-memory cache. -/
def Repo.add (repo : Repo) (rs : RunningState) : Repo :=
  ⟨(rs.id, rs) :: repo.inmemory.filter (fun p => p.1 != rs.id)⟩

deriving instance DecidableEq for Except

/-- Result of a Repository operation: the cache afterwards, the trace of
collaborator calls made (also on the error path, up to the throw), and the
returned value or the error thrown. -/
structure Outcome (α : Type) where
  repo : Repo
  events : List Event
  result : Except RepoError α
deriving DecidableEq, Repr

/-- `LoadOpts`: `none` models an absent (undefined) field. -/
structure LoadOpts where
  sync : Option SyncOptions := none
  syncTimeoutSeconds : Option Nat := none
  skipCacaoExpirationChecks : Bool := false
deriving DecidableEq, Repr

/-- `CreateOpts` / `UpdateOpts`: load options plus the `pin` field. -/
structure CreateOpts extends LoadOpts where
  pin : Option Bool := none
deriving DecidableEq, Repr

/-- `PinningOpts`. -/
structure PinningOpts where
  pin : Option Bool := none
deriving DecidableEq, Repr

/-- `PublishOpts`. -/
structure PublishOpts where
  publish : Bool := false
deriving DecidableEq, Repr

/-- `DEFAULT_LOAD_OPTS = { sync: SyncOptions.PREFER_CACHE, syncTimeoutSeconds: 3 }`. -/
def DEFAULT_LOAD_OPTS : LoadOpts :=
  { sync := some SyncOptions.PREFER_CACHE, syncTimeoutSeconds := some 3 }

/-- One field of the JS spread `{ ...defaults, ...opts }`: the option's own
value when the key is present, the default otherwise. -/
def mergeField {α : Type} (dflt v : Option α) : Option α :=
  match v with
  | some x => some x
  | none => dflt

/-- `opts = { ...DEFAULT_LOAD_OPTS, ...opts }` restricted to the load fields. -/
def spreadLoadOpts (defaults opts : LoadOpts) : LoadOpts :=
  { sync := mergeField defaults.sync opts.sync
    syncTimeoutSeconds := mergeField defaults.syncTimeoutSeconds opts.syncTimeoutSeconds
    skipCacaoExpirationChecks := opts.skipCacaoExpirationChecks }

/-- `shouldIndex(state$, index)` from repository.ts. -/
def shouldIndex (env : Env) (rs : RunningState) : Bool :=
  match rs.state.metadata.model with
  | none => false
  | some m => env.shouldIndexStream m

/-- `fromMemory(streamId)`: probe the in-memory cache. -/
def fromMemory (repo : Repo) (sid : Nat) : Option RunningState :=
  cacheGet repo sid

/-- `fromStreamStateStore(streamId)`: on a state-store hit, build a
RunningState pinned, add it to the cache, and rehydrate a persisted anchor
request via `confirmAnchorResponse` when one exists and the anchor service is
configured. -/
def fromStreamStateStore (env : Env) (repo : Repo) (sid : Nat) :
    Option RunningState × Repo × List Event :=
  match env.stateStoreLoad sid with
  | some streamState =>
      let runningState : RunningState := ⟨sid, streamState, true⟩
      let repo' := repo.add runningState
      let events :=
        match env.anchorRequestStoreLoad sid with
        | some cid =>
            if env.hasAnchorService then [Event.confirmAnchorResponse runningState cid] else []
        | none => []
      (some runningState, repo', events)
  | none => (none, repo, [])

/-- `fromNetwork(streamId)`: fetch the genesis commit, set
`disableTimecheck = true`, apply it with the handler, wrap unpinned, add to
cache; throws when no genesis commit is found. -/
def fromNetwork (env : Env) (repo : Repo) (sid : Nat) : Outcome RunningState :=
  match env.getCommitData sid with
  | none => ⟨repo, [], .error (.noGenesisCommit sid)⟩
  | some cd =>
      let commitData := { cd with disableTimecheck := true }
      let state := env.applyGenesisCommit commitData
      let rs : RunningState := ⟨sid, state, false⟩
      ⟨repo.add rs, [Event.handlerApplyGenesis commitData], .ok rs⟩

/-- `_loadGenesis(streamId)`: memory, then local state store, then network. -/
def loadGenesis (env : Env) (repo : Repo) (sid : Nat) :
    Outcome (RunningState × Bool) :=
  match fromMemory repo sid with
  | some stream => ⟨repo, [], .ok (stream, true)⟩
  | none =>
      match fromStreamStateStore env repo sid with
      | (some stream, repo1, ev1) =>
          ⟨repo1, ev1, .ok (stream, env.wasPinnedStreamSynced sid)⟩
      | (none, _, _) =>
          match fromNetwork env repo sid with
          | ⟨repo1, ev1, .error e⟩ => ⟨repo1, ev1, .error e⟩
          | ⟨repo1, ev1, .ok stream⟩ => ⟨repo1, ev1, .ok (stream, false)⟩

/-- `fromMemoryOrStore(streamId)`: cache or state store, no network. -/
def fromMemoryOrStore (env : Env) (repo : Repo) (sid : Nat) :
    Option RunningState × Repo × List Event :=
  match fromMemory repo sid with
  | some rs => (some rs, repo, [])
  | none => fromStreamStateStore env repo sid

/-- Body of the closure `load` runs on `loadingQ.forStream(streamId)`: branch
on the (already merged) sync mode.  Returns the state and the `synced` flag. -/
def loadQueueTask (env : Env) (repo : Repo) (sid : Nat) (opts : LoadOpts) :
    Outcome (RunningState × Bool) :=
  match opts.sync.getD SyncOptions.PREFER_CACHE with
  | SyncOptions.PREFER_CACHE | SyncOptions.SYNC_ON_ERROR =>
      match loadGenesis env repo sid with
      | ⟨repo1, ev1, .error e⟩ => ⟨repo1, ev1, .error e⟩
      | ⟨repo1, ev1, .ok (streamState, alreadySynced)⟩ =>
          if alreadySynced then ⟨repo1, ev1, .ok (streamState, alreadySynced)⟩
          else
            ⟨repo1,
              ev1 ++ [Event.syncCall streamState ((opts.syncTimeoutSeconds.getD 3) * 1000) none],
              .ok (streamState, true)⟩
  | SyncOptions.NEVER_SYNC => loadGenesis env repo sid
  | SyncOptions.SYNC_ALWAYS =>
      match fromNetwork env (fromMemoryOrStore env repo sid).2.1 sid with
      | ⟨repo2, ev2, .error e⟩ => ⟨repo2, (fromMemoryOrStore env repo sid).2.2 ++ ev2, .error e⟩
      | ⟨repo2, ev2, .ok netState⟩ =>
          ⟨repo2,
            (fromMemoryOrStore env repo sid).2.2 ++ ev2 ++
              [Event.syncCall netState ((opts.syncTimeoutSeconds.getD 3) * 1000)
                ((fromMemoryOrStore env repo sid).1.map RunningState.tip)],
            .ok (netState, true)⟩

/-- `load(streamId, opts)` from repository.ts: merge in the default load
options, run the queue task, then run the CACAO expiration check unless
skipped, and mark pinned-and-synced when the synced state is pinned. -/
def load (env : Env) (repo : Repo) (sid : Nat) (opts0 : LoadOpts) :
    Outcome RunningState :=
  match loadQueueTask env repo sid (spreadLoadOpts DEFAULT_LOAD_OPTS opts0) with
  | ⟨repo1, ev1, .error e⟩ => ⟨repo1, ev1, .error e⟩
  | ⟨repo1, ev1, .ok (state, synced)⟩ =>
      if !(spreadLoadOpts DEFAULT_LOAD_OPTS opts0).skipCacaoExpirationChecks
          && env.cacaoExpired state.state then
        ⟨repo1, ev1, .error .capabilityExpired⟩
      else
        ⟨repo1,
          ev1 ++ (if synced && state.isPinned then [Event.markPinnedAndSynced state.id] else []),
          .ok state⟩

/-- `loadAtCommit(commitId, opts)`: load the base stream with
`skipCacaoExpirationChecks` forced on, take the snapshot via
`StateManager.atCommit`, then run the CACAO expiration check on the snapshot. -/
def loadAtCommit (env : Env) (repo : Repo) (commitId : CommitID) (opts : LoadOpts) :
    Outcome SnapshotState :=
  match load env repo commitId.baseID { opts with skipCacaoExpirationChecks := true } with
  | ⟨repo1, ev1, .error e⟩ => ⟨repo1, ev1, .error e⟩
  | ⟨repo1, ev1, .ok base⟩ =>
      match env.atCommit base commitId with
      | .error e => ⟨repo1, ev1, .error e⟩
      | .ok stateAtCommit =>
          if env.cacaoExpired stateAtCommit.state then
            ⟨repo1, ev1, .error .capabilityExpired⟩
          else ⟨repo1, ev1, .ok stateAtCommit⟩

/-- Modelled from the spec: `PinStore.add` (pin-store.ts is not among the
analysed sources) persists the stream's state durably and marks the running
state pinned. -/
def pinStoreAddState (rs : RunningState) : RunningState × List Event :=
  ({ rs with isPinned := true }, [Event.pinStoreAdd rs.id])

/-- Modelled from the spec: `PinStore.rm` (pin-store.ts is not among the
analysed sources) removes the stream's state from the pin store and marks the
running state unpinned. -/
def pinStoreRmState (rs : RunningState) : RunningState × List Event :=
  ({ rs with isPinned := false }, [Event.pinStoreRm rs.id])

/-- `Repository.pin(state$)`: delegate to `pinStore.add`. -/
def pin (rs : RunningState) : RunningState × List Event :=
  pinStoreAddState rs

/-- `Repository.unpin(state$, opts?)`: throw `CannotUnpinIndexed` on an
indexed stream before any side effect; otherwise optionally publish the tip,
mark the stream unpinned, and remove it from the pin store. -/
def unpin (env : Env) (rs : RunningState) (opts : Option PublishOpts) :
    RunningState × List Event × Except RepoError Unit :=
  if shouldIndex env rs then
    (rs, [], .error (.cannotUnpinIndexed rs.id))
  else
    let publishEvents :=
      if (opts.map PublishOpts.publish).getD false then [Event.publishTip rs.id] else []
    let (rs', rmEvents) := pinStoreRmState rs
    (rs', publishEvents ++ [Event.markUnpinned rs.id] ++ rmEvents, .ok ())

/-- `handlePinOpts(state$, opts, opType)` from repository.ts. -/
def handlePinOpts (env : Env) (rs : RunningState) (opts : PinningOpts)
    (opType : OperationType) :
    RunningState × List Event × Except RepoError Unit :=
  if opts.pin.isSome && opType != OperationType.CREATE then
    (rs, [Event.warnPinOpts opType (opts.pin.getD false)], .ok ())
  else if opts.pin == some true
      || (opts.pin == none && shouldIndex env rs)
      || (opts.pin == none && opType == OperationType.CREATE) then
    let (rs', ev) := pin rs
    (rs', ev, .ok ())
  else if opts.pin == some false then
    unpin env rs none
  else
    (rs, [], .ok ())

/-- `applyWriteOpts(state$, opts, opType)`: delegate anchor/publish options to
the StateManager, then apply the pin policy. -/
def applyWriteOpts (env : Env) (rs : RunningState) (opts : PinningOpts)
    (opType : OperationType) :
    RunningState × List Event × Except RepoError Unit :=
  let r := handlePinOpts env rs opts opType
  (r.1, Event.applyWriteOptsSM rs.id :: r.2.1, r.2.2)

/-- `applyCommit(streamId, commit, opts)`: delegate to
`StateManager.applyCommit`, then `applyWriteOpts` with `UPDATE`. -/
def applyCommit (env : Env) (repo : Repo) (sid commit : Nat) (opts : CreateOpts) :
    Outcome RunningState :=
  let state := env.applyCommitSM sid commit
  let r := applyWriteOpts env state ⟨opts.pin⟩ OperationType.UPDATE
  match r.2.2 with
  | .error e => ⟨repo, r.2.1, .error e⟩
  | .ok _ => ⟨repo, r.2.1, .ok r.1⟩

/-- Package the outcome of an `applyWriteOpts` run after a successful load:
events append to the load's trace; the updated state is returned on success. -/
def outcomeOfWrite (repo1 : Repo) (ev1 : List Event)
    (r : RunningState × List Event × Except RepoError Unit) : Outcome RunningState :=
  match r.2.2 with
  | .error e => ⟨repo1, ev1 ++ r.2.1, .error e⟩
  | .ok _ => ⟨repo1, ev1 ++ r.2.1, .ok r.1⟩

/-- `applyCreateOpts(streamId, opts)`: load, classify as CREATE exactly when
the loaded log has a single commit, then `applyWriteOpts`. -/
def applyCreateOpts (env : Env) (repo : Repo) (sid : Nat) (opts : CreateOpts) :
    Outcome RunningState :=
  match load env repo sid opts.toLoadOpts with
  | ⟨repo1, ev1, .error e⟩ => ⟨repo1, ev1, .error e⟩
  | ⟨repo1, ev1, .ok state⟩ =>
      outcomeOfWrite repo1 ev1
        (applyWriteOpts env state ⟨opts.pin⟩
          (if state.state.log.length == 1 then OperationType.CREATE
            else OperationType.LOAD))

/-- `streamState(streamId)`: the cached RunningState's current state on a
memory hit, the state store's answer otherwise. -/
def streamState (env : Env) (repo : Repo) (sid : Nat) :
    Outcome (Option StreamState) :=
  match cacheGet repo sid with
  | some rs => ⟨repo, [], .ok (some rs.state)⟩
  | none => ⟨repo, [], .ok (env.stateStoreLoad sid)⟩

/-- Recogniser for `StateManager.sync` calls in a trace. -/
def isSyncCall : Event → Bool
  | .syncCall _ _ _ => true
  | _ => false

/-- Number of `StateManager.sync` calls in a trace. -/
def countSyncCalls (evs : List Event) : Nat :=
  (evs.filter isSyncCall).length

/-- Number of `publishTip` calls in a trace. -/
def countPublishTip (evs : List Event) : Nat :=
  (evs.filter (fun e =>
    match e with
    | .publishTip _ => true
    | _ => false)).length

/-- A concrete single-commit stream state without a model. -/
def stateA : StreamState := { log := [5], metadata := { model := none } }

/-- A concrete two-commit stream state carrying model 2. -/
def stateB : StreamState := { log := [6, 7], metadata := { model := some 2 } }

/-- A concrete environment for evaluating the model at specific inputs:
memory and state store miss, network has a genesis commit. -/
def baseEnv : Env where
  stateStoreLoad := fun _ => none
  anchorRequestStoreLoad := fun _ => none
  hasAnchorService := true
  getCommitData := fun _ => some { cid := 9, disableTimecheck := false }
  applyGenesisCommit := fun _ => stateA
  wasPinnedStreamSynced := fun _ => false
  shouldIndexStream := fun _ => true
  cacaoExpired := fun _ => false
  atCommit := fun rs _ => .ok { state := rs.state }
  applyCommitSM := fun sid _ => ⟨sid, stateA, true⟩

/-- Environment with a state-store hit and a persisted anchor request, but no
anchor service configured. -/
def envStoreNoAnchorService : Env :=
  { baseEnv with
      stateStoreLoad := fun _ => some stateA
      anchorRequestStoreLoad := fun _ => some 7
      hasAnchorService := false }

/-- Environment with a state-store hit, a persisted anchor request, and an
anchor service configured. -/
def envStoreAnchor : Env :=
  { baseEnv with
      stateStoreLoad := fun _ => some stateA
      anchorRequestStoreLoad := fun _ => some 7
      hasAnchorService := true }

/-- Environment in which every state fails the CACAO expiration check. -/
def envExpired : Env := { baseEnv with cacaoExpired := fun _ => true }

/-- `shouldIndex` unfolded: the stream has a model and the indexing API says
it should be indexed. -/
theorem shouldIndex_eq_true_iff (env : Env) (rs : RunningState) :
    shouldIndex env rs = true ↔
      ∃ m, rs.state.metadata.model = some m ∧ env.shouldIndexStream m = true := by
  unfold shouldIndex
  cases h : rs.state.metadata.model <;> simp

/-- `_loadGenesis` never calls `StateManager.sync`. -/
theorem loadGenesis_no_sync (env : Env) (repo : Repo) (sid : Nat) :
    countSyncCalls (loadGenesis env repo sid).events = 0 := by
  unfold loadGenesis fromMemory fromStreamStateStore fromNetwork countSyncCalls
  cases cacheGet repo sid <;>
    cases env.stateStoreLoad sid <;>
      cases env.anchorRequestStoreLoad sid <;>
        cases env.getCommitData sid <;>
          cases env.hasAnchorService <;>
            simp [isSyncCall]

/-- `fromMemoryOrStore` never calls `StateManager.sync`. -/
theorem fromMemoryOrStore_no_sync (env : Env) (repo : Repo) (sid : Nat) :
    countSyncCalls (fromMemoryOrStore env repo sid).2.2 = 0 := by
  unfold fromMemoryOrStore fromMemory fromStreamStateStore countSyncCalls
  cases cacheGet repo sid <;>
    cases env.stateStoreLoad sid <;>
      cases env.anchorRequestStoreLoad sid <;>
        cases env.hasAnchorService <;>
          simp [isSyncCall]

/-- The only error `_loadGenesis` can raise is a missing genesis commit. -/
theorem loadGenesis_error_shape (env : Env) (repo : Repo) (sid : Nat) (e : RepoError)
    (h : (loadGenesis env repo sid).result = .error e) :
    e = RepoError.noGenesisCommit sid := by
  unfold loadGenesis fromMemory fromStreamStateStore fromNetwork at h
  cases hm : cacheGet repo sid <;> rw [hm] at h
  · cases hs : env.stateStoreLoad sid <;> rw [hs] at h
    · cases hn : env.getCommitData sid <;> rw [hn] at h <;> simp at h
      exact h.symm
    · simp at h
  · simp at h

/-- `countSyncCalls` distributes over list append. -/
theorem countSyncCalls_append (a b : List Event) :
    countSyncCalls (a ++ b) = countSyncCalls a + countSyncCalls b := by
  simp [countSyncCalls, List.filter_append]

/-- The only error `fromNetwork` can raise is a missing genesis commit. -/
theorem fromNetwork_error_shape (env : Env) (repo : Repo) (sid : Nat) (e : RepoError)
    (h : (fromNetwork env repo sid).result = .error e) :
    e = RepoError.noGenesisCommit sid := by
  unfold fromNetwork at h
  cases hn : env.getCommitData sid <;> rw [hn] at h <;> simp at h
  exact h.symm

/-- The only error the load queue task can raise is a missing genesis commit. -/
theorem loadQueueTask_error_shape (env : Env) (repo : Repo) (sid : Nat) (opts : LoadOpts)
    (e : RepoError) (h : (loadQueueTask env repo sid opts).result = .error e) :
    e = RepoError.noGenesisCommit sid := by
  unfold loadQueueTask at h
  cases hs : opts.sync.getD SyncOptions.PREFER_CACHE <;> rw [hs] at h
  case PREFER_CACHE | SYNC_ON_ERROR =>
    cases hg : loadGenesis env repo sid with
    | mk repo1 ev1 res =>
      cases res with
      | error e2 =>
        rw [hg] at h
        simp at h
        rw [← h]
        have h3 := loadGenesis_error_shape env repo sid e2
        rw [hg] at h3
        exact h3 rfl
      | ok v =>
        rw [hg] at h
        cases v with
        | mk rs b =>
          cases b <;> simp at h
  case NEVER_SYNC =>
    exact loadGenesis_error_shape env repo sid e h
  case SYNC_ALWAYS =>
    cases hn : fromNetwork env (fromMemoryOrStore env repo sid).2.1 sid with
    | mk repo2 ev2 res =>
      cases res with
      | error e2 =>
        rw [hn] at h
        simp at h
        rw [← h]
        have h3 := fromNetwork_error_shape env (fromMemoryOrStore env repo sid).2.1 sid e2
        rw [hn] at h3
        exact h3 rfl
      | ok v =>
        rw [hn] at h
        simp at h

/-- A singleton sync call counts as one. -/
theorem countSyncCalls_sync_singleton (rs : RunningState) (t : Nat) (h : Option Nat) :
    countSyncCalls [Event.syncCall rs t h] = 1 := rfl

/-- A singleton `markPinnedAndSynced` contributes no sync calls. -/
theorem countSyncCalls_mark_singleton (sid : Nat) :
    countSyncCalls [Event.markPinnedAndSynced sid] = 0 := rfl

/-- A singleton genesis handler application contributes no sync calls. -/
theorem countSyncCalls_handler_singleton (cd : CommitData) :
    countSyncCalls [Event.handlerApplyGenesis cd] = 0 := rfl

/-- The empty trace has no sync calls. -/
theorem countSyncCalls_nil : countSyncCalls ([] : List Event) = 0 := rfl

/-- C2: for a load with sync PREFER_CACHE or SYNC_ON_ERROR: when
`_loadGenesis` reports the state already synced, no `StateManager.sync` call
is made; otherwise exactly one `sync` call is made, on that state, with
timeout `opts.syncTimeoutSeconds * 1000`; the state `_loadGenesis` produced is
what `load` returns on success. -/
theorem load_prefer_cache_sync_policy (env : Env) (repo : Repo) (sid : Nat)
    (opts : LoadOpts)
    (hsync : opts.sync = some SyncOptions.PREFER_CACHE ∨
      opts.sync = some SyncOptions.SYNC_ON_ERROR)
    (t : Nat) (ht : opts.syncTimeoutSeconds = some t)
    (rs : RunningState) (b : Bool) (repo1 : Repo) (ev1 : List Event)
    (hgen : loadGenesis env repo sid = ⟨repo1, ev1, .ok (rs, b)⟩) :
    countSyncCalls (load env repo sid opts).events = (if b then 0 else 1)
    ∧ (b = false → Event.syncCall rs (t * 1000) none ∈ (load env repo sid opts).events)
    ∧ (∀ rs', (load env repo sid opts).result = .ok rs' → rs' = rs) := by
  have hev : countSyncCalls ev1 = 0 := by
    have h0 := loadGenesis_no_sync env repo sid
    rw [hgen] at h0
    exact h0
  have htask : loadQueueTask env repo sid (spreadLoadOpts DEFAULT_LOAD_OPTS opts) =
      (if b then (⟨repo1, ev1, .ok (rs, b)⟩ : Outcome (RunningState × Bool))
        else ⟨repo1, ev1 ++ [Event.syncCall rs (t * 1000) none], .ok (rs, true)⟩) := by
    cases b <;>
      rcases hsync with h | h <;>
        unfold loadQueueTask <;>
          simp [spreadLoadOpts, mergeField, h, ht, hgen]
  have hev2 : List.filter isSyncCall ev1 = [] := List.length_eq_zero.mp hev
  unfold load
  rw [htask]
  cases b <;>
    cases hc : env.cacaoExpired rs.state <;>
      cases hsk : (spreadLoadOpts DEFAULT_LOAD_OPTS opts).skipCacaoExpirationChecks <;>
        cases hp : rs.isPinned <;>
          simp [hc, hsk, hp, countSyncCalls, isSyncCall, List.filter_append, hev2]

/-- C3: for a load with sync SYNC_ALWAYS, a fresh copy is fetched from the
network while the memory/local-store copy is consulted; `StateManager.sync`
is invoked exactly once, on the network copy, with the local copy's tip (when
a local copy exists) as the hint; and the network copy is what `load` returns
on success. -/
theorem load_sync_always_policy (env : Env) (repo : Repo) (sid : Nat) (opts : LoadOpts)
    (hsync : opts.sync = some SyncOptions.SYNC_ALWAYS)
    (t : Nat) (ht : opts.syncTimeoutSeconds = some t)
    (cd : CommitData) (hnet : env.getCommitData sid = some cd) :
    Event.syncCall ⟨sid, env.applyGenesisCommit { cd with disableTimecheck := true }, false⟩
        (t * 1000) ((fromMemoryOrStore env repo sid).1.map RunningState.tip)
      ∈ (load env repo sid opts).events
    ∧ countSyncCalls (load env repo sid opts).events = 1
    ∧ (∀ rs', (load env repo sid opts).result = .ok rs' →
        rs' = ⟨sid, env.applyGenesisCommit { cd with disableTimecheck := true }, false⟩) := by
  have hloc : countSyncCalls (fromMemoryOrStore env repo sid).2.2 = 0 :=
    fromMemoryOrStore_no_sync env repo sid
  have htask : loadQueueTask env repo sid (spreadLoadOpts DEFAULT_LOAD_OPTS opts) =
      ⟨((fromMemoryOrStore env repo sid).2.1).add
          ⟨sid, env.applyGenesisCommit { cd with disableTimecheck := true }, false⟩,
        (fromMemoryOrStore env repo sid).2.2 ++
          [Event.handlerApplyGenesis { cd with disableTimecheck := true }] ++
          [Event.syncCall
            ⟨sid, env.applyGenesisCommit { cd with disableTimecheck := true }, false⟩
            (t * 1000) ((fromMemoryOrStore env repo sid).1.map RunningState.tip)],
        .ok (⟨sid, env.applyGenesisCommit { cd with disableTimecheck := true }, false⟩,
          true)⟩ := by
    unfold loadQueueTask fromNetwork
    simp [spreadLoadOpts, mergeField, hsync, ht, hnet]
  have hloc2 : List.filter isSyncCall (fromMemoryOrStore env repo sid).2.2 = [] :=
    List.length_eq_zero.mp hloc
  unfold load
  rw [htask]
  cases hc : env.cacaoExpired (env.applyGenesisCommit { cd with disableTimecheck := true }) <;>
    cases hsk : (spreadLoadOpts DEFAULT_LOAD_OPTS opts).skipCacaoExpirationChecks <;>
      simp [hc, hsk, countSyncCalls, isSyncCall, List.filter_append, hloc2]

/-- Witness for C2 at a concrete network-backed load that needs a sync. -/
theorem load_prefer_cache_sync_policy_witness :
    countSyncCalls (load baseEnv ⟨[]⟩ 0
        { sync := some SyncOptions.PREFER_CACHE, syncTimeoutSeconds := some 2 }).events = 1
    ∧ Event.syncCall ⟨0, stateA, false⟩ 2000 none ∈
        (load baseEnv ⟨[]⟩ 0
          { sync := some SyncOptions.PREFER_CACHE, syncTimeoutSeconds := some 2 }).events := by
  have h := load_prefer_cache_sync_policy baseEnv ⟨[]⟩ 0
    { sync := some SyncOptions.PREFER_CACHE, syncTimeoutSeconds := some 2 }
    (Or.inl rfl) 2 rfl ⟨0, stateA, false⟩ false
    ⟨[(0, ⟨0, stateA, false⟩)]⟩ [Event.handlerApplyGenesis ⟨9, true⟩] rfl
  exact ⟨h.1, h.2.1 rfl⟩

/-- Witness for C3 at a concrete local-store hit plus a network fetch: the
sync hint is the local copy's tip. -/
theorem load_sync_always_policy_witness :
    Event.syncCall ⟨0, stateA, false⟩ 2000 (some 5) ∈
      (load envStoreAnchor ⟨[]⟩ 0
        { sync := some SyncOptions.SYNC_ALWAYS, syncTimeoutSeconds := some 2 }).events
    ∧ countSyncCalls (load envStoreAnchor ⟨[]⟩ 0
        { sync := some SyncOptions.SYNC_ALWAYS, syncTimeoutSeconds := some 2 }).events = 1 := by
  have h := load_sync_always_policy envStoreAnchor ⟨[]⟩ 0
    { sync := some SyncOptions.SYNC_ALWAYS, syncTimeoutSeconds := some 2 }
    rfl 2 rfl ⟨9, false⟩ rfl
  exact ⟨h.1, h.2.1⟩

/-- With CACAO expiration checks skipped, `load` never raises
`CapabilityExpired`. -/
theorem load_skip_cacao_never_expired (env : Env) (repo : Repo) (sid : Nat)
    (opts : LoadOpts) (hskip : opts.skipCacaoExpirationChecks = true) :
    (load env repo sid opts).result ≠ .error RepoError.capabilityExpired := by
  have hsk : (spreadLoadOpts DEFAULT_LOAD_OPTS opts).skipCacaoExpirationChecks = true := by
    simp [spreadLoadOpts, hskip]
  unfold load
  cases htask : loadQueueTask env repo sid (spreadLoadOpts DEFAULT_LOAD_OPTS opts) with
  | mk repo1 ev1 res =>
    cases res with
    | error e =>
      have h3 := loadQueueTask_error_shape env repo sid (spreadLoadOpts DEFAULT_LOAD_OPTS opts) e
      rw [htask] at h3
      have h4 := h3 rfl
      simp [h4]
    | ok v =>
      cases v with
      | mk st syn =>
        simp [hsk]

/-- C7: `loadAtCommit` loads the base stream with CACAO checks disabled (so
the base load never raises `CapabilityExpired`), takes the snapshot via
`StateManager.atCommit`, and raises `CapabilityExpired` exactly when the
snapshot state fails the expiration check. -/
theorem loadAtCommit_capability (env : Env) (repo : Repo) (commitId : CommitID)
    (opts : LoadOpts) :
    ((load env repo commitId.baseID { opts with skipCacaoExpirationChecks := true }).result
        ≠ .error RepoError.capabilityExpired)
    ∧ (∀ repo1 ev1 base,
        load env repo commitId.baseID { opts with skipCacaoExpirationChecks := true } =
          ⟨repo1, ev1, .ok base⟩ →
        ∀ snap, env.atCommit base commitId = .ok snap →
          ((loadAtCommit env repo commitId opts).result = .error RepoError.capabilityExpired ↔
            env.cacaoExpired snap.state = true)
          ∧ (env.cacaoExpired snap.state = false →
              (loadAtCommit env repo commitId opts).result = .ok snap)) := by
  constructor
  · exact load_skip_cacao_never_expired env repo commitId.baseID _ rfl
  · intro repo1 ev1 base hload snap hat
    unfold loadAtCommit
    rw [hload]
    simp only [hat]
    cases hc : env.cacaoExpired snap.state <;> simp [hc]

/-- Witness for C7 in an environment where every state fails the CACAO check:
the guarded base load succeeds while `loadAtCommit` surfaces
`CapabilityExpired` from the final snapshot check. -/
theorem loadAtCommit_capability_witness :
    (loadAtCommit envExpired ⟨[]⟩ ⟨0, 5⟩ {}).result = .error RepoError.capabilityExpired
    ∧ (load envExpired ⟨[]⟩ 0 { skipCacaoExpirationChecks := true }).result ≠
        .error RepoError.capabilityExpired := by
  have h := loadAtCommit_capability envExpired ⟨[]⟩ ⟨0, 5⟩ {}
  refine ⟨?_, h.1⟩
  exact (h.2 ⟨[(0, ⟨0, stateA, false⟩)]⟩
    [Event.handlerApplyGenesis ⟨9, true⟩, Event.syncCall ⟨0, stateA, false⟩ 3000 none]
    ⟨0, stateA, false⟩ rfl ⟨stateA⟩ rfl).1.mpr rfl

/-- C8: `applyCreateOpts` classifies the operation as CREATE exactly when the
loaded state's log has length 1 (and as LOAD otherwise) before applying the
write options; with empty options and a single-commit log the stream ends up
pinned. -/
theorem applyCreateOpts_spec (env : Env) (repo : Repo) (sid : Nat) (opts : CreateOpts)
    (repo1 : Repo) (ev1 : List Event) (state : RunningState)
    (hload : load env repo sid opts.toLoadOpts = ⟨repo1, ev1, .ok state⟩) :
    (state.state.log.length = 1 →
      applyCreateOpts env repo sid opts =
        outcomeOfWrite repo1 ev1 (applyWriteOpts env state ⟨opts.pin⟩ OperationType.CREATE))
    ∧ (state.state.log.length ≠ 1 →
      applyCreateOpts env repo sid opts =
        outcomeOfWrite repo1 ev1 (applyWriteOpts env state ⟨opts.pin⟩ OperationType.LOAD))
    ∧ (opts.pin = none → state.state.log.length = 1 →
        (applyCreateOpts env repo sid opts).result = .ok { state with isPinned := true }
        ∧ (applyCreateOpts env repo sid opts).events =
            ev1 ++ [Event.applyWriteOptsSM state.id, Event.pinStoreAdd state.id]) := by
  have hA : state.state.log.length = 1 →
      applyCreateOpts env repo sid opts =
        outcomeOfWrite repo1 ev1 (applyWriteOpts env state ⟨opts.pin⟩ OperationType.CREATE) := by
    intro h
    unfold applyCreateOpts
    rw [hload]
    simp [h]
  refine ⟨hA, ?_, ?_⟩
  · intro h
    unfold applyCreateOpts
    rw [hload]
    simp [h]
  · intro hpin h
    rw [hA h]
    unfold outcomeOfWrite applyWriteOpts handlePinOpts pin pinStoreAddState
    simp [hpin]

/-- Witness for C8: creating with empty options over a single-commit genesis
load pins the stream. -/
theorem applyCreateOpts_spec_witness :
    (applyCreateOpts baseEnv ⟨[]⟩ 0 {}).result = .ok ⟨0, stateA, true⟩
    ∧ Event.pinStoreAdd 0 ∈ (applyCreateOpts baseEnv ⟨[]⟩ 0 {}).events := by
  have h := applyCreateOpts_spec baseEnv ⟨[]⟩ 0 {}
    ⟨[(0, ⟨0, stateA, false⟩)]⟩
    [Event.handlerApplyGenesis ⟨9, true⟩, Event.syncCall ⟨0, stateA, false⟩ 3000 none]
    ⟨0, stateA, false⟩ rfl
  have h2 := h.2.2 rfl rfl
  refine ⟨h2.1, ?_⟩
  rw [h2.2]
  simp

/-- `load` is a function of the merged load options. -/
theorem load_opts_congr (env : Env) (repo : Repo) (sid : Nat) (o1 o2 : LoadOpts)
    (h : spreadLoadOpts DEFAULT_LOAD_OPTS o1 = spreadLoadOpts DEFAULT_LOAD_OPTS o2) :
    load env repo sid o1 = load env repo sid o2 := by
  unfold load
  rw [h]

/-- C9: an absent `opts.sync` behaves exactly as `PREFER_CACHE`, an absent
`opts.syncTimeoutSeconds` defaults to 3 seconds, and explicitly supplied
fields override the defaults when merging `DEFAULT_LOAD_OPTS`. -/
theorem load_default_opts (env : Env) (repo : Repo) (sid : Nat) (opts : LoadOpts) :
    (opts.sync = none →
      load env repo sid opts =
        load env repo sid { opts with sync := some SyncOptions.PREFER_CACHE })
    ∧ (opts.syncTimeoutSeconds = none →
      load env repo sid opts =
        load env repo sid { opts with syncTimeoutSeconds := some 3 })
    ∧ (∀ s, opts.sync = some s →
        (spreadLoadOpts DEFAULT_LOAD_OPTS opts).sync = some s)
    ∧ (∀ t, opts.syncTimeoutSeconds = some t →
        (spreadLoadOpts DEFAULT_LOAD_OPTS opts).syncTimeoutSeconds = some t) := by
  refine ⟨?_, ?_, ?_, ?_⟩
  · intro h
    apply load_opts_congr
    simp [spreadLoadOpts, mergeField, h, DEFAULT_LOAD_OPTS]
  · intro h
    apply load_opts_congr
    simp [spreadLoadOpts, mergeField, h, DEFAULT_LOAD_OPTS]
  · intro s h
    simp [spreadLoadOpts, mergeField, h]
  · intro t h
    simp [spreadLoadOpts, mergeField, h]

/-- Witness for C9 at concrete inputs: an absent sync option loads like
PREFER_CACHE, and an explicit SYNC_ALWAYS survives the merge. -/
theorem load_default_opts_witness :
    load baseEnv ⟨[]⟩ 0 {} =
      load baseEnv ⟨[]⟩ 0 { sync := some SyncOptions.PREFER_CACHE }
    ∧ (spreadLoadOpts DEFAULT_LOAD_OPTS
        { sync := some SyncOptions.SYNC_ALWAYS, syncTimeoutSeconds := some 7 }).sync =
      some SyncOptions.SYNC_ALWAYS := by
  refine ⟨(load_default_opts baseEnv ⟨[]⟩ 0 {}).1 rfl, ?_⟩
  exact (load_default_opts baseEnv ⟨[]⟩ 0
    { sync := some SyncOptions.SYNC_ALWAYS, syncTimeoutSeconds := some 7 }).2.2.1
    SyncOptions.SYNC_ALWAYS rfl

/-- C1 counterexample: on a state-store hit with a persisted anchor request
but no anchor service configured, `_loadGenesis` makes no
`confirmAnchorResponse` call even though a persisted request exists. -/
theorem loadGenesis_rehydrate_cex :
    envStoreNoAnchorService.anchorRequestStoreLoad 0 = some 7
    ∧ (envStoreNoAnchorService.stateStoreLoad 0).isSome = true
    ∧ (loadGenesis envStoreNoAnchorService ⟨[]⟩ 0).result = .ok (⟨0, stateA, true⟩, false)
    ∧ (loadGenesis envStoreNoAnchorService ⟨[]⟩ 0).events = [] := by
  exact ⟨rfl, rfl, rfl, rfl⟩

/-- C1 (amended): `_loadGenesis` probes memory, then the local state store,
then the network.  A memory hit returns `(state, true)` with no side effects;
a state-store hit builds a RunningState with `isPinned = true`, adds it to the
cache, rehydrates a persisted anchor request via `confirmAnchorResponse` when
one exists AND an anchor service is configured, and returns
`(state, wasPinnedStreamSynced(streamId))`; otherwise the genesis commit is
fetched from the network, applied by the handler with
`disableTimecheck = true`, wrapped with `isPinned = false`, added to the
cache, and returned with `synced = false`. -/
theorem loadGenesis_tiers (env : Env) (repo : Repo) (sid : Nat) :
    (∀ rs, fromMemory repo sid = some rs →
        loadGenesis env repo sid = ⟨repo, [], .ok (rs, true)⟩)
    ∧ (∀ ss, fromMemory repo sid = none → env.stateStoreLoad sid = some ss →
        loadGenesis env repo sid =
          ⟨repo.add ⟨sid, ss, true⟩,
            (match env.anchorRequestStoreLoad sid with
              | some cid =>
                  if env.hasAnchorService then
                    [Event.confirmAnchorResponse ⟨sid, ss, true⟩ cid]
                  else []
              | none => []),
            .ok (⟨sid, ss, true⟩, env.wasPinnedStreamSynced sid)⟩)
    ∧ (∀ cd, fromMemory repo sid = none → env.stateStoreLoad sid = none →
        env.getCommitData sid = some cd →
        loadGenesis env repo sid =
          ⟨repo.add ⟨sid, env.applyGenesisCommit { cd with disableTimecheck := true }, false⟩,
            [Event.handlerApplyGenesis { cd with disableTimecheck := true }],
            .ok (⟨sid, env.applyGenesisCommit { cd with disableTimecheck := true }, false⟩,
              false)⟩) := by
  refine ⟨?_, ?_, ?_⟩
  · intro rs h
    unfold loadGenesis
    rw [h]
  · intro ss h1 h2
    unfold loadGenesis fromStreamStateStore
    rw [h1, h2]
  · intro cd h1 h2 h3
    unfold loadGenesis fromStreamStateStore fromNetwork
    rw [h1, h2, h3]

/-- Witness for the amended C1: a state-store hit with a persisted anchor
request and a configured anchor service makes the `confirmAnchorResponse`
call. -/
theorem loadGenesis_tiers_witness :
    loadGenesis envStoreAnchor ⟨[]⟩ 0 =
      ⟨(⟨[]⟩ : Repo).add ⟨0, stateA, true⟩,
        [Event.confirmAnchorResponse ⟨0, stateA, true⟩ 7],
        .ok (⟨0, stateA, true⟩, false)⟩ :=
  (loadGenesis_tiers envStoreAnchor ⟨[]⟩ 0).2.1 stateA rfl rfl

/-- C6: `unpin(state$)` raises `CannotUnpinIndexed` exactly when the stream
has a model that the indexing API reports should be indexed, and then has no
side effect; otherwise the tip is published exactly once iff `opts.publish`,
the stream is marked unpinned, and it is removed from the pin store. -/
theorem unpin_correct (env : Env) (rs : RunningState) (opts : Option PublishOpts) :
    ((unpin env rs opts).2.2 = .error (.cannotUnpinIndexed rs.id) ↔
      ∃ m, rs.state.metadata.model = some m ∧ env.shouldIndexStream m = true)
    ∧ (shouldIndex env rs = true →
        unpin env rs opts = (rs, [], .error (.cannotUnpinIndexed rs.id)))
    ∧ (shouldIndex env rs = false →
        unpin env rs opts =
          ({ rs with isPinned := false },
            (if (opts.map PublishOpts.publish).getD false then [Event.publishTip rs.id]
              else []) ++ [Event.markUnpinned rs.id, Event.pinStoreRm rs.id],
            .ok ())
          ∧ countPublishTip (unpin env rs opts).2.1 =
              (if (opts.map PublishOpts.publish).getD false then 1 else 0)) := by
  refine ⟨?_, ?_, ?_⟩
  · rw [← shouldIndex_eq_true_iff]
    unfold unpin
    cases h : shouldIndex env rs <;> simp [h, pinStoreRmState]
  · intro h
    unfold unpin
    simp [h]
  · intro h
    unfold unpin
    refine ⟨by simp [h, pinStoreRmState], ?_⟩
    cases hp : (opts.map PublishOpts.publish).getD false <;>
      simp [h, hp, pinStoreRmState, countPublishTip]

/-- C4: for UPDATE or LOAD operations with `opts.pin` defined, `handlePinOpts`
only warns and changes no pin state; in particular
`applyCommit(id, c, {pin: false})` leaves a pinned stream pinned. -/
theorem handlePinOpts_update_load_noop (env : Env) (rs : RunningState) (b : Bool)
    (opType : OperationType) (hop : opType ≠ OperationType.CREATE)
    (repo : Repo) (sid commit : Nat) :
    handlePinOpts env rs ⟨some b⟩ opType = (rs, [Event.warnPinOpts opType b], .ok ())
    ∧ applyCommit env repo sid commit { pin := some false } =
        ⟨repo,
          [Event.applyWriteOptsSM (env.applyCommitSM sid commit).id,
            Event.warnPinOpts OperationType.UPDATE false],
          .ok (env.applyCommitSM sid commit)⟩
    ∧ ((env.applyCommitSM sid commit).isPinned = true →
        ∀ rs', (applyCommit env repo sid commit { pin := some false }).result = .ok rs' →
          rs'.isPinned = true) := by
  have h2 : applyCommit env repo sid commit { pin := some false } =
      ⟨repo,
        [Event.applyWriteOptsSM (env.applyCommitSM sid commit).id,
          Event.warnPinOpts OperationType.UPDATE false],
        .ok (env.applyCommitSM sid commit)⟩ := rfl
  refine ⟨?_, h2, ?_⟩
  · cases opType <;> simp_all [handlePinOpts]
  · intro hpin rs' hres
    rw [h2] at hres
    simp at hres
    rw [← hres]
    exact hpin

/-- C5 counterexample: on a CREATE with `opts.pin === false`, `handlePinOpts`
does invoke `unpin`: the pin-store removal is performed, and when the stream
should be indexed the call raises `CannotUnpinIndexed`. -/
theorem handlePinOpts_create_false_cex :
    (handlePinOpts baseEnv ⟨0, stateA, true⟩ ⟨some false⟩ OperationType.CREATE).2.1 =
      [Event.markUnpinned 0, Event.pinStoreRm 0]
    ∧ (handlePinOpts baseEnv ⟨1, stateB, true⟩ ⟨some false⟩ OperationType.CREATE).2.2 =
      .error (.cannotUnpinIndexed 1) := by
  constructor <;> rfl

/-- C5 (amended): on a CREATE with `opts.pin === false`, `handlePinOpts`
delegates to `unpin` with no publish options: for a non-indexed stream it
marks the stream unpinned and removes it from the pin store (publishing
nothing), and for an indexed stream it raises `CannotUnpinIndexed`. -/
theorem handlePinOpts_create_false_unpins (env : Env) (rs : RunningState) :
    handlePinOpts env rs ⟨some false⟩ OperationType.CREATE = unpin env rs none
    ∧ (shouldIndex env rs = false →
        handlePinOpts env rs ⟨some false⟩ OperationType.CREATE =
          ({ rs with isPinned := false },
            [Event.markUnpinned rs.id, Event.pinStoreRm rs.id], .ok ()))
    ∧ (shouldIndex env rs = true →
        handlePinOpts env rs ⟨some false⟩ OperationType.CREATE =
          (rs, [], .error (.cannotUnpinIndexed rs.id))) := by
  refine ⟨rfl, ?_, ?_⟩
  · intro h
    unfold handlePinOpts unpin
    simp [h, pinStoreRmState]
  · intro h
    unfold handlePinOpts unpin
    simp [h]

/-- C10: `streamState` is a pure read: it leaves the cache untouched and makes
no collaborator calls, returning the cached running state's current state on a
memory hit and the state store's answer otherwise; by contrast
`fromMemoryOrStore` adds a cache entry on a state-store hit. -/
theorem streamState_pure_read (env : Env) (repo : Repo) (sid : Nat) :
    (streamState env repo sid).repo = repo
    ∧ (streamState env repo sid).events = []
    ∧ (∀ rs, cacheGet repo sid = some rs →
        (streamState env repo sid).result = .ok (some rs.state))
    ∧ (cacheGet repo sid = none →
        (streamState env repo sid).result = .ok (env.stateStoreLoad sid))
    ∧ (∀ ss, cacheGet repo sid = none → env.stateStoreLoad sid = some ss →
        (fromMemoryOrStore env repo sid).2.1 = repo.add ⟨sid, ss, true⟩) := by
  unfold streamState fromMemoryOrStore fromMemory fromStreamStateStore
  cases h : cacheGet repo sid <;> simp [h]
  intro ss h2
  rw [h2]

/-- Witness for C6 at a concrete non-indexed pinned stream with publish on. -/
theorem unpin_correct_witness :
    unpin baseEnv ⟨0, stateA, true⟩ (some ⟨true⟩) =
      (⟨0, stateA, false⟩,
        [Event.publishTip 0, Event.markUnpinned 0, Event.pinStoreRm 0], .ok ())
    ∧ countPublishTip (unpin baseEnv ⟨0, stateA, true⟩ (some ⟨true⟩)).2.1 = 1 := by
  have h := (unpin_correct baseEnv ⟨0, stateA, true⟩ (some ⟨true⟩)).2.2 rfl
  exact ⟨h.1, h.2⟩

/-- Witness for C4 at a concrete UPDATE with an explicit pin argument. -/
theorem handlePinOpts_update_load_noop_witness :
    handlePinOpts baseEnv ⟨0, stateA, true⟩ ⟨some true⟩ OperationType.UPDATE =
      (⟨0, stateA, true⟩, [Event.warnPinOpts OperationType.UPDATE true], .ok ())
    ∧ (applyCommit baseEnv ⟨[]⟩ 3 11 { pin := some false }).result =
        .ok ⟨3, stateA, true⟩ := by
  have h := handlePinOpts_update_load_noop baseEnv ⟨0, stateA, true⟩ true
    OperationType.UPDATE (by decide) ⟨[]⟩ 3 11
  exact ⟨h.1, by rw [h.2.1]; rfl⟩

/-- Witness for the amended C5 at a concrete non-indexed pinned stream. -/
theorem handlePinOpts_create_false_unpins_witness :
    handlePinOpts baseEnv ⟨0, stateA, true⟩ ⟨some false⟩ OperationType.CREATE =
      (⟨0, stateA, false⟩, [Event.markUnpinned 0, Event.pinStoreRm 0], .ok ()) :=
  (handlePinOpts_create_false_unpins baseEnv ⟨0, stateA, true⟩).2.1 rfl

/-- Witness for C10 at a concrete memory miss with a state-store hit. -/
theorem streamState_pure_read_witness :
    (streamState envStoreAnchor ⟨[]⟩ 0).repo = (⟨[]⟩ : Repo)
    ∧ (streamState envStoreAnchor ⟨[]⟩ 0).result = .ok (some stateA)
    ∧ (fromMemoryOrStore envStoreAnchor ⟨[]⟩ 0).2.1 = (⟨[]⟩ : Repo).add ⟨0, stateA, true⟩ := by
  have h := streamState_pure_read envStoreAnchor ⟨[]⟩ 0
  exact ⟨h.1, h.2.2.2.1 rfl, h.2.2.2.2 stateA rfl rfl⟩

end Ceramic
